import Mathlib

set_option maxHeartbeats 1000000

/-!
Verification development for the BOM reader of cyclonedx-python
(`src/cyclonedx/bom/reader.py`).  The reader's pure logic is embedded
shallowly: requirement records, registry metadata and release artifacts are
explicit structures, the network transport and the requirements-file parser
are function parameters, printed warnings are collected in lists, and the
one `raise` in the source is an `Except.error`.
-/

namespace PyBom

/-!
## Model of the external `packaging` library

`reader.py` calls `packaging.version.parse` (line 24, used at line 156) and
`packaging.utils.canonicalize_version` (line 23, used at line 147).  These are
translated here from the packaging library (versions contemporary with this
code, e.g. 20.x/21.x): a PEP 440 version parser mirroring packaging's
`VERSION_PATTERN` regular expression, and the canonical renderer which strips
trailing `.0` release segments.  `packaging.version.parse` of that era returns
a `LegacyVersion` for strings that are not valid PEP 440; a `LegacyVersion`
has `is_prerelease = is_postrelease = is_devrelease = False`, which is modelled
by `pep440_parse` returning `none`.
-/

/-- Python's `\s` character class: space, tab, newline, carriage return,
vertical tab, form feed. -/
def isSpaceChar (c : Char) : Bool :=
  c == ' ' || c == '\t' || c == '\n' || c == '\r' || c == '\x0b' || c == '\x0c'

/-- ASCII lower-casing, as performed by `str.lower` / `re.IGNORECASE` on the
characters that can occur in a version string. -/
def lowerChar (c : Char) : Char :=
  if 'A' ≤ c && c ≤ 'Z' then Char.ofNat (c.toNat + 32) else c

def isDigitChar (c : Char) : Bool := '0' ≤ c && c ≤ '9'

/-- `[a-z0-9]` (the input has already been lower-cased). -/
def isLowerAlnum (c : Char) : Bool := isDigitChar c || ('a' ≤ c && c ≤ 'z')

/-- Digits-to-number, i.e. Python `int(...)` on a digit string. -/
def natOfDigits (ds : List Char) : Nat :=
  ds.foldl (fun n c => 10 * n + (c.toNat - 48)) 0

/-- Consume an optional single separator `[-_.]?`. -/
def eatSep : List Char → List Char
  | c :: rest => if c == '-' || c == '_' || c == '.' then rest else c :: rest
  | [] => []

/-- Consume a literal string, or fail without consuming. -/
def matchLit : List Char → List Char → Option (List Char)
  | [], cs => some cs
  | _ :: _, [] => none
  | l :: ls, c :: cs => if c == l then matchLit ls cs else none

/-- Try a list of literal alternatives; the list is ordered so that the
result coincides with the backtracking regex alternation of packaging's
`VERSION_PATTERN` (longer spellings that contain a shorter alternative as a
prefix are tried first). -/
def matchFirst : List String → List Char → Option (String × List Char)
  | [], _ => none
  | l :: ls, cs =>
    match matchLit l.toList cs with
    | some rest => some (l, rest)
    | none => matchFirst ls cs

/-- A parsed PEP 440 version, mirroring packaging's `Version` after the
normalisations done in `Version.__init__` (spellings mapped to canonical
letters, numbers converted to int). -/
structure PyVersion where
  epoch : Nat
  release : List Nat
  pre : Option (String × Nat)
  post : Option Nat
  dev : Option Nat
  localver : Option String
deriving DecidableEq

/-- Remaining release segments `(\.[0-9]+)*`, fuelled by the input length. -/
def parseMoreRelease : Nat → List Char → List Nat → (List Nat × List Char)
  | 0, cs, acc => (acc.reverse, cs)
  | fuel + 1, cs, acc =>
    match cs with
    | '.' :: rest =>
      let ds := rest.takeWhile isDigitChar
      if ds.isEmpty then (acc.reverse, cs)
      else parseMoreRelease fuel (rest.dropWhile isDigitChar) (natOfDigits ds :: acc)
    | _ => (acc.reverse, cs)

/-- Pre-release spellings in an order equivalent to the regex alternation
`(a|b|c|rc|alpha|beta|pre|preview)`. -/
def preLetters : List String := ["alpha", "beta", "preview", "pre", "rc", "a", "b", "c"]

/-- packaging's `_parse_letter_version` canonical letter mapping. -/
def normPreLetter (l : String) : String :=
  if l == "alpha" then "a"
  else if l == "beta" then "b"
  else if l == "c" || l == "pre" || l == "preview" then "rc"
  else l

/-- The `pre` group: `[-_.]? (a|b|c|rc|alpha|beta|pre|preview) [-_.]? [0-9]*`. -/
def parsePre (cs : List Char) : Option ((String × Nat) × List Char) :=
  let cs1 := eatSep cs
  match matchFirst preLetters cs1 with
  | none => none
  | some (l, cs2) =>
    let cs3 := eatSep cs2
    let ds := cs3.takeWhile isDigitChar
    some ((normPreLetter l, natOfDigits ds), cs3.dropWhile isDigitChar)

/-- Post-release spellings `(post|rev|r)`. -/
def postLetters : List String := ["post", "rev", "r"]

/-- The lettered alternative of the `post` group. -/
def parsePostLettered (cs : List Char) : Option (Nat × List Char) :=
  let cs1 := eatSep cs
  match matchFirst postLetters cs1 with
  | none => none
  | some (_, cs2) =>
    let cs3 := eatSep cs2
    let ds := cs3.takeWhile isDigitChar
    some ((natOfDigits ds), cs3.dropWhile isDigitChar)

/-- The `post` group: either the implicit form `-[0-9]+` or a lettered form. -/
def parsePost (cs : List Char) : Option (Nat × List Char) :=
  match cs with
  | '-' :: rest =>
    let ds := rest.takeWhile isDigitChar
    if ds.isEmpty then parsePostLettered cs
    else some (natOfDigits ds, rest.dropWhile isDigitChar)
  | _ => parsePostLettered cs

/-- The `dev` group: `[-_.]? dev [-_.]? [0-9]*`. -/
def parseDev (cs : List Char) : Option (Nat × List Char) :=
  let cs1 := eatSep cs
  match matchLit "dev".toList cs1 with
  | none => none
  | some cs2 =>
    let cs3 := eatSep cs2
    let ds := cs3.takeWhile isDigitChar
    some (natOfDigits ds, cs3.dropWhile isDigitChar)

/-- Further local-version segments `([-_.][a-z0-9]+)*`, fuelled. -/
def parseLocalAux : Nat → List Char → List (List Char) → (List (List Char) × List Char)
  | 0, cs, acc => (acc.reverse, cs)
  | fuel + 1, cs, acc =>
    match cs with
    | c :: rest =>
      if c == '-' || c == '_' || c == '.' then
        let seg := rest.takeWhile isLowerAlnum
        if seg.isEmpty then (acc.reverse, cs)
        else parseLocalAux fuel (rest.dropWhile isLowerAlnum) (seg :: acc)
      else (acc.reverse, cs)
    | [] => (acc.reverse, cs)

/-- packaging's `_parse_local_version` rendering of one segment: numeric
segments become integers (dropping leading zeros), others stay as-is. -/
def normLocalSeg (seg : List Char) : String :=
  if seg.all isDigitChar && !seg.isEmpty then toString (natOfDigits seg)
  else String.mk seg

/-- The optional local version `\+[a-z0-9]+([-_.][a-z0-9]+)*`, returned in the
normalised form used by `Version.local` (segments joined with `.`).
`none` means the `+` was present but malformed (whole version invalid). -/
def parseLocal (cs : List Char) : Option (Option String × List Char) :=
  match cs with
  | '+' :: rest =>
    let seg1 := rest.takeWhile isLowerAlnum
    if seg1.isEmpty then none
    else
      let rest1 := rest.dropWhile isLowerAlnum
      let (segs, restN) := parseLocalAux rest1.length rest1 [seg1]
      some (some (".".intercalate (segs.map normLocalSeg)), restN)
  | _ => some (none, cs)

/-- PEP 440 parsing as done by `packaging.version.Version`: the anchored
`VERSION_PATTERN` match (surrounding whitespace allowed, case-insensitive,
optional leading `v`) followed by the field normalisations.  Returns `none`
exactly when packaging raises `InvalidVersion` (i.e. when `parse` falls back
to a `LegacyVersion`). -/
def pep440_parse (s : String) : Option PyVersion :=
  let lowered := s.toList.map lowerChar
  let cs0 := ((lowered.dropWhile isSpaceChar).reverse.dropWhile isSpaceChar).reverse
  let cs1 := match cs0 with
    | 'v' :: rest => rest
    | _ => cs0
  let eds := cs1.takeWhile isDigitChar
  let (epoch, csR) :=
    match cs1.dropWhile isDigitChar with
    | '!' :: rest => if eds.isEmpty then (0, cs1) else (natOfDigits eds, rest)
    | _ => (0, cs1)
  let rds := csR.takeWhile isDigitChar
  if rds.isEmpty then none
  else
    let afterR := csR.dropWhile isDigitChar
    let (relTail, csP) := parseMoreRelease afterR.length afterR []
    let release := natOfDigits rds :: relTail
    let (pre, csPost) :=
      match parsePre csP with
      | some (p, rest) => (some p, rest)
      | none => (none, csP)
    let (post, csDev) :=
      match parsePost csPost with
      | some (n, rest) => (some n, rest)
      | none => (none, csPost)
    let (dev, csLoc) :=
      match parseDev csDev with
      | some (n, rest) => (some n, rest)
      | none => (none, csDev)
    match parseLocal csLoc with
    | none => none
    | some (loc, csEnd) =>
      if csEnd.isEmpty then
        some { epoch := epoch, release := release, pre := pre, post := post,
               dev := dev, localver := loc }
      else none

/-- `Version.is_prerelease`: a dev- or pre-release (false for `LegacyVersion`). -/
def is_prerelease : Option PyVersion → Bool
  | some v => v.dev.isSome || v.pre.isSome
  | none => false

/-- `Version.is_postrelease` (false for `LegacyVersion`). -/
def is_postrelease : Option PyVersion → Bool
  | some v => v.post.isSome
  | none => false

/-- `Version.is_devrelease` (false for `LegacyVersion`). -/
def is_devrelease : Option PyVersion → Bool
  | some v => v.dev.isSome
  | none => false

/-- `packaging.version.parse`. -/
def packaging_parse (s : String) : Option PyVersion := pep440_parse s

/-- The trailing-zero strip `re.sub(r"(\.0)+$", "", ...)` applied by
`canonicalize_version` to the dotted release segment: trailing zero
components are dropped, but the leading component always stays. -/
def stripTrailingZeros : List Nat → List Nat
  | [] => []
  | h :: t => h :: ((t.reverse.dropWhile (fun n => n == 0)).reverse)

/-- `packaging.utils.canonicalize_version`: parse, then re-render the version
canonically; unparsable inputs are returned unchanged. -/
def canonicalize_version (v : String) : String :=
  match pep440_parse v with
  | none => v
  | some p =>
    (if p.epoch != 0 then toString p.epoch ++ "!" else "")
    ++ ".".intercalate ((stripTrailingZeros p.release).map toString)
    ++ (match p.pre with
        | some (l, n) => l ++ toString n
        | none => "")
    ++ (match p.post with
        | some n => ".post" ++ toString n
        | none => "")
    ++ (match p.dev with
        | some n => ".dev" ++ toString n
        | none => "")
    ++ (match p.localver with
        | some l => "+" ++ l
        | none => "")

example : pep440_parse "1.0.0rc1" =
    some { epoch := 0, release := [1, 0, 0], pre := some ("rc", 1), post := none,
           dev := none, localver := none } := by decide

example : canonicalize_version "1.0.0-rc1" = "1rc1" := by decide

example : canonicalize_version "2.0" = "2" := by decide

example : canonicalize_version "1!2.0.post3.dev4+foo-01" = "1!2.post3.dev4+foo.1" := by decide

example : canonicalize_version "not a version" = "not a version" := by decide

example : is_postrelease (packaging_parse "1.0-5") = true := by decide

example : is_prerelease (packaging_parse "1.0") = false := by decide

/-!
## Data model

`reader.py` does `from cyclonedx.models import *` (line 27); the model
classes themselves are not under `src/`, so they are modelled from the spec
(section 3): plain records whose optional fields default to absent and whose
collection fields default to empty.
-/

/-- Modelled from the spec: a hash record has an algorithm tag and a digest
string (`cyclonedx.models.Hash`, constructed as `Hash(alg, digest)` at
reader.py line 135 and read back via `.alg` at line 188). -/
structure Hash where
  alg : String
  digest : String
deriving DecidableEq

/-- Modelled from the spec: a bare license name (`cyclonedx.models.License`). -/
structure License where
  name : String
deriving DecidableEq

/-- Modelled from the spec: the wrapper distinguishing a license chosen for a
component from a bare license name (`cyclonedx.models.ComponentLicense`). -/
structure ComponentLicense where
  license : License
deriving DecidableEq

/-- Modelled from the spec: one resolved component
(`cyclonedx.models.Component`).  Fields not passed to the constructor at
reader.py lines 74-79 start out absent/empty and are attached during the
single resolution pass. -/
structure Component where
  name : String
  version : String
  purl : String
  component_type : String
  publisher : Option String := none
  description : Option String := none
  requires_dist : Option (List String) := none
  licenses : List ComponentLicense := []
  hashes : List Hash := []
deriving DecidableEq

/-- Modelled from the spec: one dependency record
(`cyclonedx.models.Dependency`): the owning component's identifier and the
ordered identifiers it depends on (empty by default). -/
structure Dependency where
  ref : String
  depends_on : List String := []
deriving DecidableEq

/-- A requirement record as produced by the external `requirements` parsing
library: a name, a list of `(operator, version)` specifier tuples (each tuple
modelled as a token list so that the malformed `len(req.specs[0]) < 2` case
at reader.py line 69 is representable), a local-file flag and a path. -/
structure Requirement where
  name : String
  specs : List (List String)
  local_file : Bool
  path : String := ""
deriving DecidableEq

/-- One release artifact in the registry's `releases` entry: its
`packagetype` and its `digests` object (an ordered algorithm-to-digest map,
kept as an association list in JSON object order). -/
structure ReleaseArtifact where
  packagetype : String
  digests : List (String × String)
deriving DecidableEq

/-- The `info` object of the registry's per-release JSON
(spec section 6: author, summary, requires_dist, license).  `requires_dist`
and `license` may be JSON `null`. -/
structure PackageInfoData where
  author : String
  summary : String
  requires_dist : Option (List String)
  license : Option String
deriving DecidableEq

/-- The registry's per-release JSON document.  `releases` is an ordered map
from release-key strings to artifact lists, kept as an association list in
JSON object order.  The `name` field models the `package_info['name']`
access at reader.py line 163. -/
structure PackageInfo where
  name : String
  info : PackageInfoData
  releases : List (String × List ReleaseArtifact)
deriving DecidableEq

/-- The typed error for the one `raise ValueError(...)` in the source
(reader.py line 163), carrying the message and the two extra arguments. -/
structure VersionIndexError where
  message : String
  package_name : String
  version : String
deriving DecidableEq

/-- Outcome of one registry HTTP round trip: parsed JSON, or any
`requests.RequestException` (timeout, DNS failure, non-2xx status). -/
inductive TransportResult where
  | ok (pkg : PackageInfo)
  | err
deriving DecidableEq

/-- The registry transport as a function of package name and version
(reader.py performs `requests.get` on a URL built from both). -/
def Transport : Type := String → String → TransportResult

/-!
## The reader functions (translated from `src/cyclonedx/bom/reader.py`)
-/

/-- `generate_purl` (reader.py lines 124-125).  The external
`packageurl.PackageURL(...).to_string()` call renders
`pkg:pypi/<name>@<version>` with empty namespace, qualifiers and subpath;
for the `pypi` type the library lower-cases the name and maps underscores to
hyphens.  Percent-encoding of reserved characters is not modelled. -/
def generate_purl (package_name package_version : String) : String :=
  "pkg:pypi/"
    ++ String.mk (package_name.toList.map (fun c => if c == '_' then '-' else lowerChar c))
    ++ "@" ++ package_version

/-- `get_package_info` (reader.py lines 106-121): one transport call; any
`requests.RequestException` degrades to `None` plus one printed warning.
The warning list is returned alongside the result. -/
def get_package_info (package_name package_version : String) (transport : Transport) :
    Option PackageInfo × List String :=
  match transport package_name package_version with
  | .ok pkg => (some pkg, [])
  | .err => (none, ["WARNING: could not retrieve package info for " ++ package_name])

/-- `translate_digests` (reader.py lines 128-135): keep digests whose
algorithm key is in the fixed mapping, translated to the enumeration tag,
in digest-object order. -/
def hash_alg_mapping : List (String × String) :=
  [("md5", "MD5"), ("sha1", "SHA-1"), ("sha256", "SHA-256"), ("sha512", "SHA-512")]

def translate_digests (digests : List (String × String)) : List Hash :=
  digests.filterMap (fun kv =>
    (hash_alg_mapping.lookup kv.1).map (fun a => Hash.mk a kv.2))

/-- `_get_pypi_version` (reader.py lines 138-150): scan the release keys in
order and return the first whose canonicalized form equals the requested
version string, or whose raw form equals it. -/
def _get_pypi_version (special_version : String)
    (release_dict : List (String × List ReleaseArtifact)) : Option String :=
  match release_dict with
  | [] => none
  | (release, _) :: rest =>
    if special_version == canonicalize_version release || special_version == release then
      some release
    else _get_pypi_version special_version rest

/-- `get_release_info` (reader.py lines 153-164): fetch the artifact list for
the requested version; for special (pre/post/dev) versions re-resolve the key
via `_get_pypi_version`, raising when no equivalent key exists. -/
def get_release_info (package_info : PackageInfo) (specified_version : String) :
    Except VersionIndexError (Option (List ReleaseArtifact)) :=
  if is_prerelease (packaging_parse specified_version)
      || is_postrelease (packaging_parse specified_version)
      || is_devrelease (packaging_parse specified_version) then
    match _get_pypi_version specified_version package_info.releases with
    | some pypi_version => .ok (package_info.releases.lookup pypi_version)
    | none => .error { message := "Could not find a matching normalized version string",
                       package_name := package_info.name,
                       version := specified_version }
  else
    .ok (package_info.releases.lookup specified_version)

/-- One step of the dict accumulation at reader.py lines 184-188:
`hashes[release_hash.alg] = release_hash` on an insertion-ordered map
(overwriting a present key keeps its original position, new keys append). -/
def insertHash : List (String × Hash) → Hash → List (String × Hash)
  | [], h => [(h.alg, h)]
  | (k, v) :: tl, h => if k == h.alg then (k, h) :: tl else (k, v) :: insertHash tl h

/-- `get_hashes` (reader.py lines 167-190): prefer `bdist_wheel` artifacts
over `sdist` ones (anything else is dropped), then fold all translated
digests into an insertion-ordered dict keyed by algorithm (last wins) and
return its values. -/
def get_hashes (releases : List ReleaseArtifact) : List Hash :=
  let has_wheel := releases.any (fun r => r.packagetype == "bdist_wheel")
  let relevant_releases := releases.filter (fun r =>
    (has_wheel && r.packagetype == "bdist_wheel")
      || (!has_wheel && r.packagetype == "sdist"))
  let hashes := relevant_releases.foldl
    (fun m release => (translate_digests release.digests).foldl insertHash m) []
  hashes.map (fun kv => kv.2)

/-- Strict lexicographic character-list order (Python's `<` on strings,
restricted to the code-point comparison relevant here). -/
def strLt : List Char → List Char → Bool
  | [], [] => false
  | [], _ :: _ => true
  | _ :: _, [] => false
  | a :: as, b :: bs =>
    if a.toNat < b.toNat then true
    else if b.toNat < a.toNat then false
    else strLt as bs

/-- Boolean order used for `component.hashes.sort()` (reader.py line 99).
Modelled from the spec: hashes are ordered by algorithm name (digest as
tie-break) for deterministic serialization. -/
def hashLE (a b : Hash) : Bool :=
  strLt a.alg.toList b.alg.toList
    || (a.alg == b.alg && !strLt b.digest.toList a.digest.toList)

def insertHashSorted (h : Hash) : List Hash → List Hash
  | [] => [h]
  | x :: xs => if hashLE x h then x :: insertHashSorted h xs else h :: x :: xs

/-- `list.sort()` on the hash list, as a stable insertion sort under `hashLE`. -/
def sortHashes (l : List Hash) : List Hash := l.foldr insertHashSorted []

/-- Python's `len(package_license.strip()) > 0` test at reader.py line 91. -/
def stripNonempty (s : String) : Bool :=
  s.toList.any (fun c => !isSpaceChar c)

/-- The license attachment at reader.py lines 90-94: a license record is
added when the reported license is neither null, empty (falsy), `UNKNOWN`,
nor whitespace-only. -/
def license_records : Option String → List ComponentLicense
  | none => []
  | some package_license =>
    if package_license != "" && package_license != "UNKNOWN"
        && stripNonempty package_license then
      [{ license := { name := package_license } }]
    else []

/-- `get_component` (reader.py lines 60-103).  Printed messages are collected
in the second component of the result; the uncaught `ValueError` that
`get_release_info` may raise surfaces as `Except.error`. -/
def get_component (req : Requirement) (transport : Transport) :
    Except VersionIndexError (Option Component × List String) :=
  if req.local_file then
    .ok (none, ["WARNING: Local file " ++ req.path ++ " does not have versions. Skipping."])
  else
    match req.specs with
    | [] => .ok (none, ["WARNING: " ++ req.name ++ " does not have a version specified. Skipping."])
    | spec0 :: _ =>
      match spec0 with
      | op :: ver :: _ =>
        let component0 : Component :=
          { name := req.name, version := ver, purl := generate_purl req.name ver,
            component_type := "library" }
        let warn_pin : List String :=
          if op != "==" then
            ["WARNING: " ++ req.name ++ " is not pinned to a specific version. Using: " ++ ver]
          else []
        match get_package_info req.name ver transport with
        | (none, warn_lookup) => .ok (some component0, warn_pin ++ warn_lookup)
        | (some pkg, warn_lookup) =>
          let component1 : Component :=
            { component0 with
              publisher := some pkg.info.author,
              description := some pkg.info.summary,
              requires_dist := pkg.info.requires_dist,
              licenses := license_records pkg.info.license }
          match pkg.releases.lookup ver with
          | some _ =>
            match get_release_info pkg ver with
            | .error e => .error e
            | .ok release_info =>
              .ok (some { component1 with
                          hashes := sortHashes (get_hashes (release_info.getD [])) },
                   warn_pin ++ warn_lookup)
          | none =>
            .ok (some component1,
                 warn_pin ++ warn_lookup
                   ++ ["WARNING: " ++ req.name ++ "==" ++ ver ++ " could not be found in PyPi"])
      | _ =>
        -- reader.py lines 69-71: a malformed specifier tuple is skipped
        -- silently (no print before the `return None`).
        .ok (none, [])

/-- `get_dependency` (reader.py lines 193-201): one record per component;
each declared requirement string is parsed to a bare name by the external
`requirements` library (the `parse_name` parameter models
`next(requirements.parse(req)).name`), and the first resolved component with
that name contributes its identifier. -/
def get_dependency (parse_name : String → String) (components : List Component)
    (component : Component) : Dependency :=
  let depends :=
    match component.requires_dist with
    | none => []
    | some rds =>
      rds.foldl (fun acc req =>
        match components.filter (fun c => c.name == parse_name req) with
        | [] => acc
        | req_component :: _ => acc ++ [req_component.purl]) []
  { ref := component.purl, depends_on := depends }

/-- The deduplication loop of `read_bom` (reader.py lines 40-46), with the
`components` and `added_purls` accumulators explicit. -/
def dedupLoop : List Component → List String → List (Option Component) → List Component
  | components, _, [] => components
  | components, added_purls, none :: rest => dedupLoop components added_purls rest
  | components, added_purls, some c :: rest =>
    if added_purls.contains c.purl then dedupLoop components added_purls rest
    else dedupLoop (components ++ [c]) (added_purls ++ [c.purl]) rest

/-- The generator expression at reader.py line 38: resolve every requirement
in order, collecting the printed messages; an escaping exception aborts. -/
def resolve_components (transport : Transport) :
    List Requirement → Except VersionIndexError (List (Option Component) × List String)
  | [] => .ok ([], [])
  | req :: reqs =>
    match get_component req transport with
    | .error e => .error e
    | .ok (c, msgs) =>
      match resolve_components transport reqs with
      | .error e => .error e
      | .ok (cs, msgss) => .ok (c :: cs, msgs ++ msgss)

/-- `read_bom` (reader.py lines 34-57) up to the BOM-serialization boundary:
the deduplicated component list, the dependency records (one per component,
in order) and the printed messages.  The `generator.build_*_bom` call is the
out-of-scope output serializer. -/
def read_bom (reqs : List Requirement) (transport : Transport)
    (parse_name : String → String) :
    Except VersionIndexError (List Component × List Dependency × List String) :=
  match resolve_components transport reqs with
  | .error e => .error e
  | .ok (all_components, msgs) =>
    let components := dedupLoop [] [] all_components
    let dependencies := components.map (get_dependency parse_name components)
    .ok (components, dependencies, "Generating CycloneDX BOM" :: msgs)

/-!
## Spec-side reformulations and helper lemmas
-/

/-- Spec-side restatement of the artifact filter of `get_hashes`: if any
artifact is a binary distribution keep only those, else keep only source
distributions. -/
def kept_artifacts (releases : List ReleaseArtifact) : List ReleaseArtifact :=
  if releases.any (fun r => r.packagetype == "bdist_wheel") then
    releases.filter (fun r => r.packagetype == "bdist_wheel")
  else
    releases.filter (fun r => r.packagetype == "sdist")

/-- All recognised digests provided by a list of artifacts, in iteration
order. -/
def hash_updates (arts : List ReleaseArtifact) : List Hash :=
  (arts.map (fun r => translate_digests r.digests)).flatten

/-- Spec-side "last wins" selection: the digest of the last recognised
digest entry for algorithm `a` among the given artifacts. -/
def last_digest (arts : List ReleaseArtifact) (a : String) : Option String :=
  ((hash_updates arts).reverse.find? (fun h => h.alg == a)).map (fun h => h.digest)

theorem lookup_insertHash_self (m : List (String × Hash)) (h : Hash) :
    (insertHash m h).lookup h.alg = some h := by
  induction m with
  | nil => simp [insertHash, List.lookup]
  | cons kv tl ih =>
    obtain ⟨k, v⟩ := kv
    cases hk : (k == h.alg) with
    | true =>
      have hke : (h.alg == k) = true := by
        have : k = h.alg := by simpa using hk
        simp [this]
      simp [insertHash, hk, List.lookup, hke]
    | false =>
      have hke : (h.alg == k) = false := by
        simp only [beq_eq_false_iff_ne] at hk ⊢
        exact Ne.symm hk
      simp [insertHash, hk, List.lookup, hke, ih]

theorem lookup_insertHash_ne (m : List (String × Hash)) (h : Hash) (a : String)
    (hne : a ≠ h.alg) : (insertHash m h).lookup a = m.lookup a := by
  induction m with
  | nil =>
    have : (a == h.alg) = false := by simpa using hne
    simp [insertHash, List.lookup, this]
  | cons kv tl ih =>
    obtain ⟨k, v⟩ := kv
    cases hk : (k == h.alg) with
    | true =>
      have hka : (a == k) = false := by
        simp only [beq_eq_false_iff_ne]
        intro hak
        exact hne (by rw [hak]; simpa using hk)
      simp [insertHash, hk, List.lookup, hka]
    | false =>
      cases hak : (a == k) <;> simp [insertHash, hk, List.lookup, hak, ih]

theorem foldl_insertHash_lookup (us : List Hash) (m : List (String × Hash)) (a : String) :
    (us.foldl insertHash m).lookup a
      = match us.reverse.find? (fun h => h.alg == a) with
        | some h => some h
        | none => m.lookup a := by
  induction us generalizing m with
  | nil => simp
  | cons u us ih =>
    simp only [List.foldl_cons, List.reverse_cons, List.find?_append]
    rw [ih]
    cases hfind : us.reverse.find? (fun h => h.alg == a) with
    | some h => simp
    | none =>
      simp only [Option.none_or]
      cases hpu : (u.alg == a) with
      | true =>
        have hua : u.alg = a := by simpa using hpu
        subst hua
        simp [List.find?, hpu, lookup_insertHash_self]
      | false =>
        have hua : a ≠ u.alg := by
          simp only [beq_eq_false_iff_ne] at hpu
          exact Ne.symm hpu
        simp [List.find?, hpu, lookup_insertHash_ne _ _ _ hua]

/-- Every entry of the accumulated dict is keyed by its hash's algorithm. -/
def WellKeyed (m : List (String × Hash)) : Prop := ∀ p ∈ m, p.2.alg = p.1

theorem insertHash_wellKeyed {m : List (String × Hash)} (h : Hash)
    (hm : WellKeyed m) : WellKeyed (insertHash m h) := by
  induction m with
  | nil =>
    intro p hp
    simp [insertHash] at hp
    subst hp
    rfl
  | cons kv tl ih =>
    obtain ⟨k, v⟩ := kv
    have hmtl : WellKeyed tl := fun p hp => hm p (List.mem_cons_of_mem _ hp)
    cases hk : (k == h.alg) with
    | true =>
      intro p hp
      simp only [insertHash, hk, if_true] at hp
      rcases List.mem_cons.mp hp with heq | hmem
      · subst heq; exact (show k = h.alg by simpa using hk).symm
      · exact hm p (List.mem_cons_of_mem _ hmem)
    | false =>
      intro p hp
      simp only [insertHash, hk, Bool.false_eq_true, if_false] at hp
      rcases List.mem_cons.mp hp with heq | hmem
      · subst heq; exact hm (k, v) (List.mem_cons_self _ _)
      · exact ih hmtl p hmem

theorem lookup_none_of_not_mem_keys {m : List (String × Hash)} {a : String}
    (h : a ∉ m.map Prod.fst) : m.lookup a = none := by
  induction m with
  | nil => rfl
  | cons kv tl ih =>
    simp only [List.map_cons, List.mem_cons, not_or] at h
    have : (a == kv.1) = false := by simpa using h.1
    simp [List.lookup, this, ih h.2]

theorem not_mem_keys_of_lookup_none {m : List (String × Hash)} {a : String}
    (h : m.lookup a = none) : a ∉ m.map Prod.fst := by
  induction m with
  | nil => simp
  | cons kv tl ih =>
    simp only [List.lookup] at h
    by_cases hak : a = kv.1
    · simp [hak] at h
    · have hf : (a == kv.1) = false := by simpa using hak
      rw [hf] at h
      simp only [List.map_cons, List.mem_cons, not_or]
      exact ⟨hak, ih h⟩

theorem keys_insertHash (m : List (String × Hash)) (h : Hash) :
    (insertHash m h).map Prod.fst
      = if (m.lookup h.alg).isSome then m.map Prod.fst
        else m.map Prod.fst ++ [h.alg] := by
  induction m with
  | nil => simp [insertHash, List.lookup]
  | cons kv tl ih =>
    obtain ⟨k, v⟩ := kv
    cases hk : (k == h.alg) with
    | true =>
      have hke : (h.alg == k) = true := by
        have : k = h.alg := by simpa using hk
        simp [this]
      simp [insertHash, hk, List.lookup, hke]
    | false =>
      have hke : (h.alg == k) = false := by
        simp only [beq_eq_false_iff_ne] at hk ⊢
        exact Ne.symm hk
      by_cases hs : (tl.lookup h.alg).isSome
      · simp [insertHash, hk, List.lookup, hke, ih, hs]
      · simp [insertHash, hk, List.lookup, hke, ih, hs]

theorem insertHash_keys_nodup {m : List (String × Hash)} (h : Hash)
    (hm : (m.map Prod.fst).Nodup) : ((insertHash m h).map Prod.fst).Nodup := by
  rw [keys_insertHash]
  by_cases hs : (m.lookup h.alg).isSome
  · simpa [hs] using hm
  · simp only [hs, Bool.false_eq_true, if_false]
    rw [List.nodup_append]
    refine ⟨hm, List.nodup_singleton _, ?_⟩
    intro a ha hb
    simp only [List.mem_singleton] at hb
    subst hb
    exact not_mem_keys_of_lookup_none (Option.not_isSome_iff_eq_none.mp hs) ha

theorem foldl_insertHash_wellKeyed (us : List Hash) (m : List (String × Hash))
    (hm : WellKeyed m) : WellKeyed (us.foldl insertHash m) := by
  induction us generalizing m with
  | nil => exact hm
  | cons u us ih => exact ih _ (insertHash_wellKeyed u hm)

theorem foldl_insertHash_keys_nodup (us : List Hash) (m : List (String × Hash))
    (hm : (m.map Prod.fst).Nodup) : ((us.foldl insertHash m).map Prod.fst).Nodup := by
  induction us generalizing m with
  | nil => exact hm
  | cons u us ih => exact ih _ (insertHash_keys_nodup u hm)

theorem lookup_eq_of_mem_nodup {m : List (String × Hash)} {k : String} {v : Hash}
    (hmem : (k, v) ∈ m) (hnd : (m.map Prod.fst).Nodup) : m.lookup k = some v := by
  induction m with
  | nil => simp at hmem
  | cons kv tl ih =>
    simp only [List.map_cons, List.nodup_cons] at hnd
    rcases List.mem_cons.mp hmem with heq | hmem'
    · rw [← heq]; simp [List.lookup]
    · have hk : k ≠ kv.1 := by
        intro hkk
        exact hnd.1 (hkk ▸ List.mem_map.mpr ⟨(k, v), hmem', rfl⟩)
      have : (k == kv.1) = false := by simpa using hk
      simp [List.lookup, this, ih hmem' hnd.2]

theorem mem_of_lookup_eq_some {m : List (String × Hash)} {k : String} {v : Hash}
    (h : m.lookup k = some v) : (k, v) ∈ m := by
  induction m with
  | nil => simp [List.lookup] at h
  | cons kv tl ih =>
    cases hak : (k == kv.1) with
    | true =>
      have hke : k = kv.1 := by simpa using hak
      subst hke
      simp only [List.lookup, hak] at h
      injection h with h2
      subst h2
      cases kv
      exact List.mem_cons_self _ _
    | false =>
      simp only [List.lookup, hak] at h
      exact List.mem_cons.mpr (Or.inr (ih h))

theorem mem_values_iff_lookup {m : List (String × Hash)} (hwk : WellKeyed m)
    (hnd : (m.map Prod.fst).Nodup) (h : Hash) :
    h ∈ m.map Prod.snd ↔ m.lookup h.alg = some h := by
  constructor
  · intro hmem
    obtain ⟨⟨p1, p2⟩, hp, hpe⟩ := List.mem_map.mp hmem
    simp only at hpe
    subst hpe
    have halg : p2.alg = p1 := hwk (p1, p2) hp
    rw [halg]
    exact lookup_eq_of_mem_nodup hp hnd
  · intro hl
    exact List.mem_map.mpr ⟨(h.alg, h), mem_of_lookup_eq_some hl, rfl⟩

theorem foldl_foldl_insertHash (arts : List ReleaseArtifact) (m : List (String × Hash)) :
    arts.foldl (fun m r => (translate_digests r.digests).foldl insertHash m) m
      = (hash_updates arts).foldl insertHash m := by
  induction arts generalizing m with
  | nil => rfl
  | cons a arts ih =>
    simp only [hash_updates, List.map_cons, List.flatten_cons, List.foldl_append,
      List.foldl_cons]
    exact ih _

theorem get_hashes_eq_values (releases : List ReleaseArtifact) :
    get_hashes releases
      = ((hash_updates (kept_artifacts releases)).foldl insertHash []).map Prod.snd := by
  by_cases hw : releases.any (fun r => r.packagetype == "bdist_wheel")
  · simp only [get_hashes, kept_artifacts, hw, if_true, Bool.true_and, Bool.not_true,
      Bool.false_and, Bool.or_false]
    rw [← foldl_foldl_insertHash]
  · simp only [Bool.not_eq_true] at hw
    simp only [get_hashes, kept_artifacts, hw, Bool.false_eq_true, if_false, Bool.false_and,
      Bool.not_false, Bool.true_and, Bool.false_or]
    rw [← foldl_foldl_insertHash]

theorem mem_get_hashes_iff (releases : List ReleaseArtifact) (h : Hash) :
    h ∈ get_hashes releases
      ↔ (hash_updates (kept_artifacts releases)).reverse.find? (fun x => x.alg == h.alg)
          = some h := by
  rw [get_hashes_eq_values]
  rw [mem_values_iff_lookup
    (foldl_insertHash_wellKeyed _ [] (by intro p hp; simp at hp))
    (foldl_insertHash_keys_nodup _ [] (by simp))]
  rw [foldl_insertHash_lookup]
  cases hfind : (hash_updates (kept_artifacts releases)).reverse.find? (fun x => x.alg == h.alg) with
  | some x => simp
  | none => simp [List.lookup]

theorem translate_digests_alg_mem {ds : List (String × String)} {h : Hash}
    (hmem : h ∈ translate_digests ds) : h.alg ∈ ["MD5", "SHA-1", "SHA-256", "SHA-512"] := by
  unfold translate_digests at hmem
  obtain ⟨kv, _, hkv⟩ := List.mem_filterMap.mp hmem
  obtain ⟨a, ha, hae⟩ := Option.map_eq_some'.mp hkv
  have : a ∈ ["MD5", "SHA-1", "SHA-256", "SHA-512"] := by
    unfold hash_alg_mapping at ha
    simp only [List.lookup] at ha
    by_cases h1 : kv.1 = "md5"
    · simp [h1] at ha; simp [← ha]
    · rw [show ((kv.1 == "md5") = false) by simpa using h1] at ha
      by_cases h2 : kv.1 = "sha1"
      · simp [h2] at ha; simp [← ha]
      · rw [show ((kv.1 == "sha1") = false) by simpa using h2] at ha
        by_cases h3 : kv.1 = "sha256"
        · simp [h3] at ha; simp [← ha]
        · rw [show ((kv.1 == "sha256") = false) by simpa using h3] at ha
          by_cases h4 : kv.1 = "sha512"
          · simp [h4] at ha; simp [← ha]
          · rw [show ((kv.1 == "sha512") = false) by simpa using h4] at ha
            simp [List.lookup] at ha
  subst hae
  simpa using this

theorem mem_hash_updates {arts : List ReleaseArtifact} {h : Hash}
    (hmem : h ∈ hash_updates arts) : ∃ r ∈ arts, h ∈ translate_digests r.digests := by
  unfold hash_updates at hmem
  obtain ⟨l, hl, hhl⟩ := List.mem_flatten.mp hmem
  obtain ⟨r, hr, hre⟩ := List.mem_map.mp hl
  exact ⟨r, hr, hre ▸ hhl⟩

/-- The concrete artifact list of the spec's Hash Selector example:
a source artifact with sha256 `A`, then two binary artifacts with sha256 `B`
and md5 `C`. -/
def c3_example_artifacts : List ReleaseArtifact :=
  [ { packagetype := "sdist", digests := [("sha256", "A")] },
    { packagetype := "bdist_wheel", digests := [("sha256", "B")] },
    { packagetype := "bdist_wheel", digests := [("md5", "C")] } ]

/-- C3: the hash selector keeps binary-distribution artifacts when any is
present and source-distribution artifacts otherwise; a hash is in the output
exactly when its digest is the one provided by the last kept artifact for
that algorithm; every output algorithm is one of the four recognised tags;
and on the spec's concrete example the output is sha256 `B` and md5 `C`. -/
theorem c3_hash_selector_policy :
    (∀ (releases : List ReleaseArtifact) (h : Hash),
        h ∈ get_hashes releases
          ↔ last_digest (kept_artifacts releases) h.alg = some h.digest)
    ∧ (∀ (releases : List ReleaseArtifact) (h : Hash), h ∈ get_hashes releases →
        h.alg ∈ ["MD5", "SHA-1", "SHA-256", "SHA-512"])
    ∧ get_hashes c3_example_artifacts = [⟨"SHA-256", "B"⟩, ⟨"MD5", "C"⟩] := by
  refine ⟨?_, ?_, rfl⟩
  · intro rs h
    rw [mem_get_hashes_iff]
    unfold last_digest
    constructor
    · intro hfind
      rw [hfind]
      rfl
    · intro hmap
      obtain ⟨x, hx, hxe⟩ := Option.map_eq_some'.mp hmap
      have halg : x.alg = h.alg := by simpa using List.find?_some hx
      have hxh : x = h := by
        cases x with
        | mk xa xd =>
          cases h with
          | mk ha hd =>
            simp only at halg hxe
            subst halg
            subst hxe
            rfl
      subst hxh
      exact hx
  · intro rs h hmem
    rw [mem_get_hashes_iff] at hmem
    have hx := List.mem_of_find?_eq_some hmem
    rw [List.mem_reverse] at hx
    obtain ⟨r, _, hr⟩ := mem_hash_updates hx
    exact translate_digests_alg_mem hr

/-- Witness for C3: the membership hypothesis discharged at the concrete
example artifacts. -/
theorem c3_hash_selector_policy_witness :
    (Hash.mk "SHA-256" "B").alg ∈ ["MD5", "SHA-1", "SHA-256", "SHA-512"] :=
  c3_hash_selector_policy.2.1 c3_example_artifacts (Hash.mk "SHA-256" "B") (by decide)

/-!
## The version normalizer (claims C1, C2, C9)
-/

/-- The special-version test at reader.py line 157. -/
def is_special_version (v : String) : Bool :=
  is_prerelease (packaging_parse v) || is_postrelease (packaging_parse v)
    || is_devrelease (packaging_parse v)

theorem string_beq_comm (a b : String) : (a == b) = (b == a) := by
  by_cases h : a = b
  · simp [h]
  · have h' : b ≠ a := Ne.symm h
    simp [h, h']

/-- The code's key scan equals a `find?` over the release keys, with the
comparison written the way the code writes it: the canonicalized form of the
key against the raw requested version, or key against requested version. -/
theorem _get_pypi_version_eq_find (v : String)
    (rel : List (String × List ReleaseArtifact)) :
    _get_pypi_version v rel
      = (rel.map Prod.fst).find? (fun k => canonicalize_version k == v || k == v) := by
  induction rel with
  | nil => rfl
  | cons kv tl ih =>
    obtain ⟨k0, a0⟩ := kv
    simp only [_get_pypi_version, List.map_cons, List.find?_cons]
    rw [string_beq_comm v (canonicalize_version k0), string_beq_comm v k0]
    cases hc : (canonicalize_version k0 == v || k0 == v) <;> simp [hc, ih]

theorem _get_pypi_version_mem {v k : String} {rel : List (String × List ReleaseArtifact)}
    (h : _get_pypi_version v rel = some k) : ∃ arts, (k, arts) ∈ rel := by
  induction rel with
  | nil => simp [_get_pypi_version] at h
  | cons kv tl ih =>
    obtain ⟨k0, a0⟩ := kv
    by_cases hc : (v == canonicalize_version k0 || v == k0) = true
    · simp only [_get_pypi_version, hc, if_true, Option.some.injEq] at h
      exact ⟨a0, by rw [← h]; exact List.mem_cons_self _ _⟩
    · simp only [_get_pypi_version, hc, if_false] at h
      obtain ⟨arts, harts⟩ := ih h
      exact ⟨arts, List.mem_cons_of_mem _ harts⟩

theorem releases_lookup_isSome_of_mem {k : String} {arts : List ReleaseArtifact}
    {rel : List (String × List ReleaseArtifact)} (h : (k, arts) ∈ rel) :
    (rel.lookup k).isSome := by
  induction rel with
  | nil => simp at h
  | cons kv tl ih =>
    rcases List.mem_cons.mp h with heq | hmem
    · rw [← heq]
      simp [List.lookup]
    · cases hak : (k == kv.1) <;> simp [List.lookup, hak, ih hmem]

theorem scan_isSome_of_lookup_isSome {v : String}
    {rel : List (String × List ReleaseArtifact)} (h : (rel.lookup v).isSome) :
    (_get_pypi_version v rel).isSome := by
  induction rel with
  | nil => simp [List.lookup] at h
  | cons kv tl ih =>
    obtain ⟨k0, a0⟩ := kv
    cases hvk : (v == k0) with
    | true =>
      simp [_get_pypi_version, hvk]
    | false =>
      simp only [List.lookup, hvk] at h
      by_cases hc : (v == canonicalize_version k0 || v == k0) = true
      · simp [_get_pypi_version, hc]
      · simp only [_get_pypi_version, hc, if_false]
        exact ih h

theorem lookup_none_of_scan_none {v : String}
    {rel : List (String × List ReleaseArtifact)} (h : _get_pypi_version v rel = none) :
    rel.lookup v = none := by
  by_cases hl : (rel.lookup v).isSome
  · have := scan_isSome_of_lookup_isSome hl
    rw [h] at this
    simp at this
  · exact Option.not_isSome_iff_eq_none.mp hl

/-- When the requested version is present verbatim among the release keys,
`get_release_info` cannot raise: it returns some artifact list. -/
theorem get_release_info_ok_of_lookup {pkg : PackageInfo} {v : String}
    (h : (pkg.releases.lookup v).isSome) :
    ∃ arts, get_release_info pkg v = .ok (some arts) := by
  unfold get_release_info
  cases hs : (is_prerelease (packaging_parse v) || is_postrelease (packaging_parse v)
      || is_devrelease (packaging_parse v)) with
  | true =>
    simp only [hs, if_true]
    obtain ⟨k, hk⟩ := Option.isSome_iff_exists.mp (scan_isSome_of_lookup_isSome h)
    obtain ⟨arts, harts⟩ := _get_pypi_version_mem hk
    obtain ⟨arts', harts'⟩ :=
      Option.isSome_iff_exists.mp (releases_lookup_isSome_of_mem harts)
    refine ⟨arts', ?_⟩
    rw [hk]
    simp [harts']
  | false =>
    simp only [hs, Bool.false_eq_true, if_false]
    obtain ⟨arts, harts⟩ := Option.isSome_iff_exists.mp h
    exact ⟨arts, by rw [harts]⟩

/-- `get_release_info` raises exactly when the requested version is special
and the key scan finds nothing. -/
theorem get_release_info_error_iff (pkg : PackageInfo) (v : String) :
    (∃ e, get_release_info pkg v = .error e)
      ↔ (is_special_version v = true ∧ _get_pypi_version v pkg.releases = none) := by
  unfold get_release_info is_special_version
  cases hs : (is_prerelease (packaging_parse v) || is_postrelease (packaging_parse v)
      || is_devrelease (packaging_parse v)) with
  | true =>
    simp only [hs, if_true, true_and]
    cases hscan : _get_pypi_version v pkg.releases <;> simp [hscan]
  | false =>
    simp only [hs, Bool.false_eq_true, if_false, false_and, iff_false]
    intro ⟨e, he⟩
    cases he

/-- Fixture for C2: a registry whose release index holds the single key
`1.0.0-rc1`, which is canonically equivalent to the requested `1.0.0rc1`
(both canonicalize to `1rc1`). -/
def c2_package : PackageInfo :=
  { name := "example",
    info := { author := "a", summary := "s", requires_dist := none, license := none },
    releases := [("1.0.0-rc1", [{ packagetype := "sdist", digests := [("sha256", "aa")] }])] }

/-- C2 counterexample: requested version `1.0.0rc1` is special, absent
verbatim, and the index key `1.0.0-rc1` is its canonical equivalent — yet the
normalizer raises the hard error instead of returning that key's artifacts,
because the code compares the canonicalized *key* against the *raw* requested
string (`canonicalize_version "1.0.0-rc1" = "1rc1" ≠ "1.0.0rc1"`). -/
theorem c2_version_normalizer_counterexample :
    is_special_version "1.0.0rc1" = true
    ∧ c2_package.releases.lookup "1.0.0rc1" = none
    ∧ canonicalize_version "1.0.0-rc1" = canonicalize_version "1.0.0rc1"
    ∧ get_release_info c2_package "1.0.0rc1"
        = .error { message := "Could not find a matching normalized version string",
                   package_name := "example", version := "1.0.0rc1" } :=
  ⟨rfl, rfl, rfl, rfl⟩

/-- The amended normalizer algorithm stated spec-side: a non-special version
is looked up verbatim; a special version is always resolved by scanning the
release keys in order for the first key whose canonicalized form equals the
requested version string exactly as written, or whose raw form equals it
(the scan also runs when the version is present verbatim, so an earlier
canonically-equivalent key takes precedence); when the scan finds nothing the
hard error is raised. -/
def normalize_amended (pkg : PackageInfo) (v : String) :
    Except VersionIndexError (Option (List ReleaseArtifact)) :=
  if is_special_version v then
    match (pkg.releases.map Prod.fst).find?
        (fun k => canonicalize_version k == v || k == v) with
    | some k => .ok (pkg.releases.lookup k)
    | none => .error { message := "Could not find a matching normalized version string",
                       package_name := pkg.name, version := v }
  else .ok (pkg.releases.lookup v)

/-- C2 amended: the normalizer implements `normalize_amended`; in particular
the requested version `1.0.0rc1` against an index containing only its
canonical equivalent `1.0.0-rc1` is a hard error naming the package and
version (not a successful match). -/
theorem c2_version_normalizer_amended :
    (∀ (pkg : PackageInfo) (v : String), get_release_info pkg v = normalize_amended pkg v)
    ∧ get_release_info c2_package "1.0.0rc1"
        = .error { message := "Could not find a matching normalized version string",
                   package_name := "example", version := "1.0.0rc1" } := by
  refine ⟨?_, rfl⟩
  intro pkg v
  unfold get_release_info normalize_amended is_special_version
  rw [_get_pypi_version_eq_find]

/-- C9: no exception escapes the component-resolver boundary: for every
requirement and every (well-shaped) registry behaviour `get_component`
returns `ok`; and the inner release lookup can raise only the single hard
error, exactly when the requested version is special and the key scan finds
no equivalent. -/
theorem c9_no_exception_escapes :
    (∀ (req : Requirement) (transport : Transport),
        (get_component req transport).isOk = true)
    ∧ (∀ (pkg : PackageInfo) (v : String),
        (∃ e, get_release_info pkg v = .error e)
          ↔ (is_special_version v = true ∧ _get_pypi_version v pkg.releases = none)) := by
  refine ⟨?_, get_release_info_error_iff⟩
  intro req transport
  unfold get_component
  by_cases hl : req.local_file
  · simp only [hl, if_true]
    rfl
  · simp only [hl, Bool.false_eq_true, if_false]
    cases hspecs : req.specs with
    | nil => rfl
    | cons spec0 rest =>
      cases spec0 with
      | nil => rfl
      | cons op vrest =>
        cases vrest with
        | nil => rfl
        | cons ver vtail =>
          cases hpi : get_package_info req.name ver transport with
          | mk pkgOpt warns =>
            cases pkgOpt with
            | none =>
              simp only [hpi]
              rfl
            | some pkg =>
              cases hlk : pkg.releases.lookup ver with
              | none =>
                simp only [hpi, hlk]
                rfl
              | some arts =>
                obtain ⟨arts', hok⟩ :=
                  @get_release_info_ok_of_lookup pkg ver (by rw [hlk]; rfl)
                simp only [hpi, hlk, hok]
                rfl

/-- C1: when the requested version parses as a special (pre/post/dev) release
and the key scan finds no matching release key, `get_component` still returns
a component populated with all metadata already obtained (name, version,
identifier, publisher, description, declared requirements, licenses) and only
the hashes absent; no error propagates out of the resolver. -/
theorem c1_special_version_failure_confined
    (req : Requirement) (transport : Transport) (pkg : PackageInfo)
    (op ver : String) (vtail : List String) (stail : List (List String))
    (hlf : req.local_file = false)
    (hspecs : req.specs = (op :: ver :: vtail) :: stail)
    (htr : transport req.name ver = .ok pkg)
    (_hspecial : is_special_version ver = true)
    (hscan : _get_pypi_version ver pkg.releases = none) :
    get_component req transport
      = .ok (some { name := req.name, version := ver,
                    purl := generate_purl req.name ver, component_type := "library",
                    publisher := some pkg.info.author,
                    description := some pkg.info.summary,
                    requires_dist := pkg.info.requires_dist,
                    licenses := license_records pkg.info.license,
                    hashes := [] },
             (if op != "==" then
                ["WARNING: " ++ req.name ++ " is not pinned to a specific version. Using: " ++ ver]
              else [])
               ++ ["WARNING: " ++ req.name ++ "==" ++ ver ++ " could not be found in PyPi"]) := by
  have hlk : pkg.releases.lookup ver = none := lookup_none_of_scan_none hscan
  unfold get_component
  simp only [hlf, Bool.false_eq_true, if_false, hspecs]
  simp only [get_package_info, htr, hlk]
  simp

/-- Fixture for C1: a pinned special version `1.0.0rc1` against a registry
whose release index holds only the unrelated key `2.0`. -/
def c1_req : Requirement := { name := "foo", specs := [["==", "1.0.0rc1"]], local_file := false }

def c1_package : PackageInfo :=
  { name := "foo",
    info := { author := "alice", summary := "summary text",
              requires_dist := some ["bar"], license := some "MIT" },
    releases := [("2.0", [{ packagetype := "sdist", digests := [("sha256", "dd")] }])] }

def c1_transport : Transport := fun _ _ => .ok c1_package

/-- Witness for C1 at the concrete fixture. -/
theorem c1_special_version_failure_confined_witness :
    get_component c1_req c1_transport
      = .ok (some { name := "foo", version := "1.0.0rc1", purl := "pkg:pypi/foo@1.0.0rc1",
                    component_type := "library", publisher := some "alice",
                    description := some "summary text", requires_dist := some ["bar"],
                    licenses := [{ license := { name := "MIT" } }], hashes := [] },
             ["WARNING: foo==1.0.0rc1 could not be found in PyPi"]) := by
  have h := c1_special_version_failure_confined c1_req c1_transport c1_package
    "==" "1.0.0rc1" [] [] rfl rfl rfl (by decide) (by decide)
  exact h

/-- C6: a registry transport failure degrades to a `None` lookup result with
exactly one warning, and the resolver still returns a component carrying only
the minimal fields (name, version, identifier, type); the run is not
aborted. -/
theorem c6_transport_failure_degrades
    (req : Requirement) (transport : Transport)
    (op ver : String) (vtail : List String) (stail : List (List String))
    (hlf : req.local_file = false)
    (hspecs : req.specs = (op :: ver :: vtail) :: stail)
    (htr : transport req.name ver = .err) :
    get_package_info req.name ver transport
      = (none, ["WARNING: could not retrieve package info for " ++ req.name])
    ∧ (get_package_info req.name ver transport).2.length = 1
    ∧ get_component req transport
        = .ok (some { name := req.name, version := ver,
                      purl := generate_purl req.name ver, component_type := "library",
                      publisher := none, description := none, requires_dist := none,
                      licenses := [], hashes := [] },
               (if op != "==" then
                  ["WARNING: " ++ req.name ++ " is not pinned to a specific version. Using: " ++ ver]
                else [])
                 ++ ["WARNING: could not retrieve package info for " ++ req.name]) := by
  have hpi : get_package_info req.name ver transport
      = (none, ["WARNING: could not retrieve package info for " ++ req.name]) := by
    unfold get_package_info
    rw [htr]
  refine ⟨hpi, by rw [hpi]; rfl, ?_⟩
  unfold get_component
  simp only [hlf, Bool.false_eq_true, if_false, hspecs, hpi]

/-- Fixture for C6: an unpinned requirement resolved against a transport that
always fails. -/
def c6_req : Requirement := { name := "baz", specs := [[">=", "2.1"]], local_file := false }

def c6_transport : Transport := fun _ _ => .err

/-- Witness for C6 at the concrete fixture (the unpinned operator also shows
that the failure itself contributes exactly one warning). -/
theorem c6_transport_failure_degrades_witness :
    get_package_info "baz" "2.1" c6_transport
      = (none, ["WARNING: could not retrieve package info for baz"])
    ∧ (get_package_info "baz" "2.1" c6_transport).2.length = 1
    ∧ get_component c6_req c6_transport
        = .ok (some { name := "baz", version := "2.1", purl := "pkg:pypi/baz@2.1",
                      component_type := "library", publisher := none, description := none,
                      requires_dist := none, licenses := [], hashes := [] },
               ["WARNING: baz is not pinned to a specific version. Using: 2.1",
                "WARNING: could not retrieve package info for baz"]) := by
  have h := c6_transport_failure_degrades c6_req c6_transport ">=" "2.1" [] [] rfl rfl rfl
  exact h

/-- Fixture for C7: a requirement whose first specifier tuple has a single
token (reader.py line 69's `len(req.specs[0]) < 2` case). -/
def c7_req_malformed : Requirement := { name := "foo", specs := [["=="]], local_file := false }

def c7_transport : Transport := fun _ _ => .err

/-- C7 counterexample: the malformed-specifier skip condition holds, the
resolver produces no component — but it emits zero warnings, not exactly
one (the `return None` at reader.py line 71 prints nothing). -/
theorem c7_skip_warning_counterexample :
    c7_req_malformed.local_file = false
    ∧ c7_req_malformed.specs ≠ []
    ∧ (c7_req_malformed.specs.headD []).length < 2
    ∧ get_component c7_req_malformed c7_transport = .ok (none, []) :=
  ⟨rfl, by decide, by decide, rfl⟩

/-- C7 amended: the local-file and missing-version skip conditions each
produce no component and exactly one warning; the malformed-specifier skip
condition produces no component and no warning at all. -/
theorem c7_skip_conditions_amended :
    (∀ (req : Requirement) (transport : Transport), req.local_file = true →
        get_component req transport
          = .ok (none,
              ["WARNING: Local file " ++ req.path ++ " does not have versions. Skipping."]))
    ∧ (∀ (req : Requirement) (transport : Transport),
        req.local_file = false → req.specs = [] →
        get_component req transport
          = .ok (none,
              ["WARNING: " ++ req.name ++ " does not have a version specified. Skipping."]))
    ∧ (∀ (req : Requirement) (transport : Transport) (spec0 : List String)
          (stail : List (List String)),
        req.local_file = false → req.specs = spec0 :: stail → spec0.length < 2 →
        get_component req transport = .ok (none, [])) := by
  refine ⟨?_, ?_, ?_⟩
  · intro req transport h
    unfold get_component
    simp only [h, if_true]
  · intro req transport h1 h2
    unfold get_component
    simp only [h1, Bool.false_eq_true, if_false, h2]
  · intro req transport spec0 stail h1 h2 hlen
    unfold get_component
    simp only [h1, Bool.false_eq_true, if_false, h2]
    cases spec0 with
    | nil => rfl
    | cons x t =>
      cases t with
      | nil => rfl
      | cons y t2 =>
        simp only [List.length_cons] at hlen
        omega

/-- Fixtures for the other two skip conditions of C7. -/
def c7_req_local : Requirement :=
  { name := "lf", specs := [], local_file := true, path := "./pkg" }

def c7_req_nospec : Requirement := { name := "nospec", specs := [], local_file := false }

/-- Witness for C7 (amended), discharging all three skip conditions at
concrete requirements. -/
theorem c7_skip_conditions_amended_witness :
    get_component c7_req_local c7_transport
      = .ok (none, ["WARNING: Local file ./pkg does not have versions. Skipping."])
    ∧ get_component c7_req_nospec c7_transport
      = .ok (none, ["WARNING: nospec does not have a version specified. Skipping."])
    ∧ get_component c7_req_malformed c7_transport = .ok (none, []) := by
  refine ⟨?_, ?_, ?_⟩
  · have h := c7_skip_conditions_amended.1 c7_req_local c7_transport rfl
    exact h
  · have h := c7_skip_conditions_amended.2.1 c7_req_nospec c7_transport rfl rfl
    exact h
  · have h := c7_skip_conditions_amended.2.2 c7_req_malformed c7_transport ["=="] [] rfl rfl
      (by decide)
    exact h

theorem insertHashSorted_ne_nil (h : Hash) (l : List Hash) : insertHashSorted h l ≠ [] := by
  cases l with
  | nil => simp [insertHashSorted]
  | cons x xs =>
    unfold insertHashSorted
    by_cases hle : hashLE x h = true
    · simp [hle]
    · simp [hle]

theorem sortHashes_eq_nil_iff (l : List Hash) : sortHashes l = [] ↔ l = [] := by
  cases l with
  | nil => simp [sortHashes]
  | cons x xs =>
    simp only [sortHashes, List.foldr_cons]
    constructor
    · intro h
      exact absurd h (insertHashSorted_ne_nil _ _)
    · intro h
      cases h

/-- Fixture for C8's counterexample: an exact pin whose registry metadata
lists the pinned version with an empty artifact list. -/
def c8_req : Requirement := { name := "foo", specs := [["==", "1.0"]], local_file := false }

def c8_package_empty : PackageInfo :=
  { name := "foo",
    info := { author := "alice", summary := "sum", requires_dist := none, license := none },
    releases := [("1.0", [])] }

def c8_transport_empty : Transport := fun _ _ => .ok c8_package_empty

/-- C8 counterexample: exact pin, successful lookup, resolved version present
among the release keys — yet the returned component's hash list is empty
(the matching release has no artifacts), contradicting the claimed non-empty
hash list. -/
theorem c8_pinned_hashes_counterexample :
    (c8_package_empty.releases.lookup "1.0").isSome = true
    ∧ get_component c8_req c8_transport_empty
        = .ok (some { name := "foo", version := "1.0", purl := "pkg:pypi/foo@1.0",
                      component_type := "library", publisher := some "alice",
                      description := some "sum", requires_dist := none,
                      licenses := [], hashes := [] }, []) :=
  ⟨rfl, rfl⟩

/-- C8 amended: for an exact pin with a successful lookup whose resolved
version is present verbatim among the release keys (and does not parse as a
special release), the component's hash list is exactly the sorted hash
selection of that release's artifacts — empty exactly when the selector
output is empty — and publisher/description are populated from the
metadata. -/
theorem c8_pinned_hashes_amended
    (req : Requirement) (transport : Transport) (pkg : PackageInfo)
    (ver : String) (vtail : List String) (stail : List (List String))
    (arts : List ReleaseArtifact)
    (hlf : req.local_file = false)
    (hspecs : req.specs = ("==" :: ver :: vtail) :: stail)
    (htr : transport req.name ver = .ok pkg)
    (hlk : pkg.releases.lookup ver = some arts)
    (hns : is_special_version ver = false) :
    get_component req transport
      = .ok (some { name := req.name, version := ver,
                    purl := generate_purl req.name ver, component_type := "library",
                    publisher := some pkg.info.author,
                    description := some pkg.info.summary,
                    requires_dist := pkg.info.requires_dist,
                    licenses := license_records pkg.info.license,
                    hashes := sortHashes (get_hashes arts) }, [])
    ∧ (sortHashes (get_hashes arts) = [] ↔ get_hashes arts = []) := by
  refine ⟨?_, sortHashes_eq_nil_iff _⟩
  have hgr : get_release_info pkg ver = .ok (some arts) := by
    unfold get_release_info
    unfold is_special_version at hns
    rw [hns] at *
    simp only [Bool.false_eq_true, if_false, hlk]
  unfold get_component
  simp only [hlf, Bool.false_eq_true, if_false, hspecs, get_package_info, htr, hlk, hgr]
  simp

/-- Fixture for C8's witness: an exact pin whose matching release has one
source artifact providing two recognised digests. -/
def c8_req_full : Requirement := { name := "bar", specs := [["==", "1.2.3"]], local_file := false }

def c8_package_full : PackageInfo :=
  { name := "bar",
    info := { author := "bob", summary := "desc", requires_dist := some [],
              license := some "Apache-2.0" },
    releases := [("1.2.3",
      [{ packagetype := "sdist", digests := [("sha256", "e3"), ("md5", "aa")] }])] }

def c8_transport_full : Transport := fun _ _ => .ok c8_package_full

/-- Witness for C8 (amended) at the concrete fixture; the hash list here is
non-empty and sorted by algorithm tag. -/
theorem c8_pinned_hashes_amended_witness :
    get_component c8_req_full c8_transport_full
      = .ok (some { name := "bar", version := "1.2.3", purl := "pkg:pypi/bar@1.2.3",
                    component_type := "library", publisher := some "bob",
                    description := some "desc", requires_dist := some [],
                    licenses := [{ license := { name := "Apache-2.0" } }],
                    hashes := sortHashes (get_hashes
                      [{ packagetype := "sdist",
                         digests := [("sha256", "e3"), ("md5", "aa")] }]) }, [])
    ∧ sortHashes (get_hashes
        [{ packagetype := "sdist", digests := [("sha256", "e3"), ("md5", "aa")] }])
      = [⟨"MD5", "aa"⟩, ⟨"SHA-256", "e3"⟩] := by
  have h := c8_pinned_hashes_amended c8_req_full c8_transport_full c8_package_full
    "1.2.3" [] [] [{ packagetype := "sdist", digests := [("sha256", "e3"), ("md5", "aa")] }]
    rfl rfl rfl rfl (by decide)
  exact ⟨h.1, rfl⟩

/-!
## Dependency-graph builder (claims C5, C10)
-/

/-- Spec-side dependency targets: for each declared requirement string, the
identifier of the first resolved component whose name equals the parsed bare
name, in declared order; requirements naming packages outside the resolved
set contribute nothing. -/
def dependency_targets_spec (parse_name : String → String) (components : List Component)
    (component : Component) : List String :=
  (component.requires_dist.getD []).filterMap (fun r =>
    (components.find? (fun c => c.name == parse_name r)).map (fun c => c.purl))

theorem head?_filter_eq_find? {α : Type} (p : α → Bool) (l : List α) :
    (l.filter p).head? = l.find? p := by
  induction l with
  | nil => rfl
  | cons x xs ih =>
    cases hx : p x <;> simp [List.filter_cons, hx, List.find?_cons, ih]

theorem get_dependency_foldl (parse_name : String → String) (components : List Component)
    (rds : List String) (acc : List String) :
    rds.foldl (fun acc req =>
        match components.filter (fun c => c.name == parse_name req) with
        | [] => acc
        | req_component :: _ => acc ++ [req_component.purl]) acc
      = acc ++ rds.filterMap (fun r =>
          (components.find? (fun c => c.name == parse_name r)).map (fun c => c.purl)) := by
  induction rds generalizing acc with
  | nil => simp
  | cons r rs ih =>
    simp only [List.foldl_cons, List.filterMap_cons]
    cases hf : components.filter (fun c => c.name == parse_name r) with
    | nil =>
      have hfind : components.find? (fun c => c.name == parse_name r) = none := by
        rw [← head?_filter_eq_find?, hf]
        rfl
      rw [ih, hfind]
      simp
    | cons rc rest =>
      have hfind : components.find? (fun c => c.name == parse_name r) = some rc := by
        rw [← head?_filter_eq_find?, hf]
        rfl
      rw [ih, hfind]
      simp

/-- The dependency record built by `get_dependency` is exactly the spec-side
record: ref is the component's identifier, targets are the spec-side
targets. -/
theorem get_dependency_eq_spec (parse_name : String → String) (components : List Component)
    (component : Component) :
    get_dependency parse_name components component
      = { ref := component.purl,
          depends_on := dependency_targets_spec parse_name components component } := by
  unfold get_dependency dependency_targets_spec
  cases hrd : component.requires_dist with
  | none => simp
  | some rds =>
    simp only [Option.getD_some]
    rw [get_dependency_foldl]
    simp

/-- C5: the dependency-graph builder emits exactly one record per resolved
component (even with an empty target set); each declared requirement
contributes the identifier of the first resolved component whose name
matches the parsed bare name, in declared order, and requirements naming
packages outside the resolved set contribute nothing. -/
theorem c5_dependency_graph_builder :
    (∀ (parse_name : String → String) (components : List Component)
        (component : Component),
        get_dependency parse_name components component
          = { ref := component.purl,
              depends_on := dependency_targets_spec parse_name components component })
    ∧ (∀ (parse_name : String → String) (components : List Component),
        (components.map (get_dependency parse_name components)).length
          = components.length) :=
  ⟨get_dependency_eq_spec, fun _ components => List.length_map components _⟩

/-!
## Deduplication (claims C4, C10)
-/

/-- Spec-side deduplication relative to a set of already-seen identifiers:
drop `None` entries, keep the first occurrence of each identifier. -/
def dedupFrom (seen : List String) : List (Option Component) → List Component
  | [] => []
  | none :: rest => dedupFrom seen rest
  | some c :: rest =>
    if seen.contains c.purl then dedupFrom seen rest
    else c :: dedupFrom (seen ++ [c.purl]) rest

theorem not_mem_of_contains_false {l : List String} {a : String}
    (h : l.contains a = false) : a ∉ l := by
  simp at h
  exact h

theorem mem_of_contains_true {l : List String} {a : String}
    (h : l.contains a = true) : a ∈ l := by
  simp at h
  exact h

theorem dedupLoop_eq_append (rest : List (Option Component)) :
    ∀ (comps : List Component) (purls : List String),
      purls = comps.map (fun c => c.purl) →
      dedupLoop comps purls rest = comps ++ dedupFrom purls rest := by
  induction rest with
  | nil =>
    intro comps purls _
    simp [dedupLoop, dedupFrom]
  | cons oc rest ih =>
    intro comps purls hp
    cases oc with
    | none => simp [dedupLoop, dedupFrom, ih comps purls hp]
    | some c =>
      cases hc : purls.contains c.purl with
      | true =>
        simp only [dedupLoop, dedupFrom, hc, if_true]
        exact ih comps purls hp
      | false =>
        simp only [dedupLoop, dedupFrom, hc, Bool.false_eq_true, if_false]
        rw [ih (comps ++ [c]) (purls ++ [c.purl]) (by simp [hp])]
        simp

theorem dedupFrom_not_mem_seen (rest : List (Option Component)) :
    ∀ (seen : List String), ∀ c ∈ dedupFrom seen rest, c.purl ∉ seen := by
  induction rest with
  | nil => intro seen c hc; simp [dedupFrom] at hc
  | cons oc rest ih =>
    intro seen c hc
    cases oc with
    | none => exact ih seen c hc
    | some d =>
      cases hd : seen.contains d.purl with
      | true =>
        simp only [dedupFrom, hd, if_true] at hc
        exact ih seen c hc
      | false =>
        simp only [dedupFrom, hd, Bool.false_eq_true, if_false] at hc
        rcases List.mem_cons.mp hc with heq | hmem
        · subst heq
          intro habs
          exact not_mem_of_contains_false hd habs
        · have := ih (seen ++ [d.purl]) c hmem
          intro habs
          exact this (List.mem_append.mpr (Or.inl habs))

theorem dedupFrom_nodup (rest : List (Option Component)) :
    ∀ (seen : List String), ((dedupFrom seen rest).map (fun c => c.purl)).Nodup := by
  induction rest with
  | nil => intro seen; simp [dedupFrom]
  | cons oc rest ih =>
    intro seen
    cases oc with
    | none => exact ih seen
    | some d =>
      cases hd : seen.contains d.purl with
      | true => simp only [dedupFrom, hd, if_true]; exact ih seen
      | false =>
        simp only [dedupFrom, hd, Bool.false_eq_true, if_false, List.map_cons,
          List.nodup_cons]
        refine ⟨?_, ih (seen ++ [d.purl])⟩
        intro habs
        obtain ⟨c, hc, hce⟩ := List.mem_map.mp habs
        have := dedupFrom_not_mem_seen rest (seen ++ [d.purl]) c hc
        exact this (List.mem_append.mpr (Or.inr (by simp [hce])))

theorem dedupFrom_sublist (rest : List (Option Component)) :
    ∀ (seen : List String), List.Sublist (dedupFrom seen rest) (rest.filterMap id) := by
  induction rest with
  | nil => intro seen; simp [dedupFrom]
  | cons oc rest ih =>
    intro seen
    cases oc with
    | none =>
      simpa [dedupFrom, List.filterMap_cons] using ih seen
    | some d =>
      simp only [dedupFrom, List.filterMap_cons]
      cases hd : seen.contains d.purl with
      | true => exact List.Sublist.cons d (ih seen)
      | false => exact List.Sublist.cons₂ d (ih (seen ++ [d.purl]))

theorem dedupFrom_find? (rest : List (Option Component)) :
    ∀ (seen : List String) (p : String), p ∉ seen →
      (dedupFrom seen rest).find? (fun c => c.purl == p)
        = (rest.filterMap id).find? (fun c => c.purl == p) := by
  induction rest with
  | nil => intro seen p _; simp [dedupFrom]
  | cons oc rest ih =>
    intro seen p hp
    cases oc with
    | none => simpa [dedupFrom, List.filterMap_cons] using ih seen p hp
    | some d =>
      simp only [dedupFrom, List.filterMap_cons, id_eq]
      cases hd : seen.contains d.purl with
      | true =>
        have hdp : (d.purl == p) = false := by
          simp only [beq_eq_false_iff_ne]
          intro habs
          exact hp (habs ▸ mem_of_contains_true hd)
        simp only [hd, if_true, List.find?_cons, hdp]
        exact ih seen p hp
      | false =>
        simp only [hd, Bool.false_eq_true, if_false]
        cases hdp : (d.purl == p) with
        | true =>
          simp only [List.find?_cons, hdp]
        | false =>
          simp only [List.find?_cons, hdp]
          refine ih (seen ++ [d.purl]) p ?_
          intro habs
          rcases List.mem_append.mp habs with hmem | hmem
          · exact hp hmem
          · simp only [List.mem_singleton] at hmem
            subst hmem
            simp at hdp

/-- C4: the component list is deduplicated by identifier keeping the first
occurrence: the deduplicated list has pairwise-distinct identifiers, is a
sublist of the resolved components in first-seen order, and its unique
representative for any identifier is the first resolved component carrying
it; consequently every component list produced by `read_bom` has
pairwise-distinct identifiers. -/
theorem c4_dedup_first_wins :
    (∀ (all : List (Option Component)),
        ((dedupLoop [] [] all).map (fun c => c.purl)).Nodup
        ∧ List.Sublist (dedupLoop [] [] all) (all.filterMap id)
        ∧ ∀ (p : String),
            (dedupLoop [] [] all).find? (fun c => c.purl == p)
              = (all.filterMap id).find? (fun c => c.purl == p))
    ∧ (∀ (reqs : List Requirement) (transport : Transport)
          (parse_name : String → String) (comps : List Component)
          (deps : List Dependency) (msgs : List String),
        read_bom reqs transport parse_name = .ok (comps, deps, msgs) →
        (comps.map (fun c => c.purl)).Nodup) := by
  have hloop : ∀ (all : List (Option Component)), dedupLoop [] [] all = dedupFrom [] all :=
    fun all => by simpa using dedupLoop_eq_append all [] [] (by simp)
  constructor
  · intro all
    rw [hloop]
    exact ⟨dedupFrom_nodup all [], dedupFrom_sublist all [],
      fun p => dedupFrom_find? all [] p (by simp)⟩
  · intro reqs transport parse_name comps deps msgs h
    unfold read_bom at h
    cases hres : resolve_components transport reqs with
    | error e => rw [hres] at h; cases h
    | ok pr =>
      obtain ⟨all, m⟩ := pr
      rw [hres] at h
      simp only [Except.ok.injEq, Prod.mk.injEq] at h
      obtain ⟨hc, -, -⟩ := h
      rw [← hc, hloop]
      exact dedupFrom_nodup all []

/-- Fixture for C4: two requirements resolving to the same identifier
(`Foo` normalizes to the same purl as `foo`), against a failing transport. -/
def c4_req1 : Requirement := { name := "foo", specs := [["==", "1.0"]], local_file := false }

def c4_req2 : Requirement := { name := "Foo", specs := [["==", "1.0"]], local_file := false }

def c4_transport : Transport := fun _ _ => .err

/-- The expected deduplicated output for the C4 fixture: exactly one
component, carrying the data resolved from the first requirement
(name `foo`, not `Foo`). -/
def c4_components : List Component :=
  [{ name := "foo", version := "1.0", purl := "pkg:pypi/foo@1.0",
     component_type := "library" }]

/-- Witness for C4: `read_bom` on the two same-identifier requirements
produces exactly the single first-resolved component, whose identifier list
is duplicate-free. -/
theorem c4_dedup_first_wins_witness :
    (c4_components.map (fun c => c.purl)).Nodup :=
  c4_dedup_first_wins.2 [c4_req1, c4_req2] c4_transport (fun s => s)
    c4_components
    [{ ref := "pkg:pypi/foo@1.0", depends_on := [] }]
    ["Generating CycloneDX BOM",
     "WARNING: could not retrieve package info for foo",
     "WARNING: could not retrieve package info for Foo"]
    rfl

/-- C10: the dependency output of `read_bom` has no dangling references:
one record per component with `ref` equal to that component's identifier, in
component-list order, and every target identifier belongs to a component of
the same output list. -/
theorem c10_no_dangling_references
    (reqs : List Requirement) (transport : Transport) (parse_name : String → String)
    (comps : List Component) (deps : List Dependency) (msgs : List String)
    (h : read_bom reqs transport parse_name = .ok (comps, deps, msgs)) :
    deps = comps.map (get_dependency parse_name comps)
    ∧ deps.length = comps.length
    ∧ (∀ (i : Nat) (hi : i < deps.length) (hj : i < comps.length),
        (deps.get ⟨i, hi⟩).ref = (comps.get ⟨i, hj⟩).purl)
    ∧ (∀ d ∈ deps, ∀ p ∈ d.depends_on, ∃ c ∈ comps, c.purl = p) := by
  have hdeps : deps = comps.map (get_dependency parse_name comps) := by
    unfold read_bom at h
    cases hres : resolve_components transport reqs with
    | error e => rw [hres] at h; cases h
    | ok pr =>
      obtain ⟨all, m⟩ := pr
      rw [hres] at h
      simp only [Except.ok.injEq, Prod.mk.injEq] at h
      obtain ⟨hc, hd, -⟩ := h
      rw [← hd, ← hc]
  refine ⟨hdeps, by rw [hdeps]; exact List.length_map _ _, ?_, ?_⟩
  · intro i hi hj
    subst hdeps
    simp only [List.get_eq_getElem, List.getElem_map]
    rw [get_dependency_eq_spec]
  · intro d hd p hp
    subst hdeps
    obtain ⟨c, hc, hce⟩ := List.mem_map.mp hd
    rw [← hce, get_dependency_eq_spec] at hp
    simp only [dependency_targets_spec] at hp
    obtain ⟨r, -, hr⟩ := List.mem_filterMap.mp hp
    obtain ⟨c', hc', hc'e⟩ := Option.map_eq_some'.mp hr
    exact ⟨c', List.mem_of_find?_eq_some hc', hc'e⟩

/-- Fixture for C10's witness: component `aaa` declares a requirement on
`bbb`, which is also resolved; `bbb` declares nothing. -/
def c10_pkgA : PackageInfo :=
  { name := "aaa",
    info := { author := "a", summary := "sa", requires_dist := some ["bbb>=2.0"],
              license := none },
    releases := [("1.0", [{ packagetype := "sdist", digests := [("sha256", "da")] }])] }

def c10_pkgB : PackageInfo :=
  { name := "bbb",
    info := { author := "b", summary := "sb", requires_dist := none, license := none },
    releases := [("2.0", [{ packagetype := "bdist_wheel", digests := [("sha256", "db")] }])] }

def c10_transport : Transport :=
  fun n _ => if n == "aaa" then .ok c10_pkgA else .ok c10_pkgB

def c10_reqs : List Requirement :=
  [{ name := "aaa", specs := [["==", "1.0"]], local_file := false },
   { name := "bbb", specs := [["==", "2.0"]], local_file := false }]

/-- Bare-name extraction standing in for the external requirements parser in
the C10 witness. -/
def c10_parse_name : String → String :=
  fun s => String.mk (s.toList.takeWhile (fun c => c.isAlpha))

def c10_comps : List Component :=
  [{ name := "aaa", version := "1.0", purl := "pkg:pypi/aaa@1.0",
     component_type := "library", publisher := some "a", description := some "sa",
     requires_dist := some ["bbb>=2.0"], licenses := [],
     hashes := [⟨"SHA-256", "da"⟩] },
   { name := "bbb", version := "2.0", purl := "pkg:pypi/bbb@2.0",
     component_type := "library", publisher := some "b", description := some "sb",
     requires_dist := none, licenses := [], hashes := [⟨"SHA-256", "db"⟩] }]

def c10_deps : List Dependency :=
  [{ ref := "pkg:pypi/aaa@1.0", depends_on := ["pkg:pypi/bbb@2.0"] },
   { ref := "pkg:pypi/bbb@2.0", depends_on := [] }]

/-- Witness for C10 at the concrete fixture. -/
theorem c10_no_dangling_references_witness :
    c10_deps = c10_comps.map (get_dependency c10_parse_name c10_comps)
    ∧ c10_deps.length = c10_comps.length :=
  have h := c10_no_dangling_references c10_reqs c10_transport c10_parse_name
    c10_comps c10_deps ["Generating CycloneDX BOM"] rfl
  ⟨h.1, h.2.1⟩

/-- Witness for C2 (amended) at a concrete package and version. -/
theorem c2_version_normalizer_amended_witness :
    get_release_info c2_package "2.0" = normalize_amended c2_package "2.0" :=
  c2_version_normalizer_amended.1 c2_package "2.0"

def c5_component : Component :=
  { name := "x", version := "1", purl := "pkg:pypi/x@1", component_type := "library" }

/-- Witness for C5 at a concrete component with an empty resolved set. -/
theorem c5_dependency_graph_builder_witness :
    get_dependency (fun s => s) [] c5_component
      = { ref := c5_component.purl,
          depends_on := dependency_targets_spec (fun s => s) [] c5_component } :=
  c5_dependency_graph_builder.1 (fun s => s) [] c5_component

/-- Witness for C9 at a concrete requirement and transport. -/
theorem c9_no_exception_escapes_witness :
    (get_component c1_req c1_transport).isOk = true :=
  c9_no_exception_escapes.1 c1_req c1_transport

end PyBom
